import Mathlib

/-!
# Verification of the BlueWhale authentication client and auth core

Shallow embedding of the authentication-related code of the BlueWhale
repository: the frontend API client (`frontend/lib/api.ts`), the auth
context provider, the MFA components, and the route-protection HOC, plus
spec-modelled definitions for the backend token/MFA core whose source is
not part of the frontend tree.
-/

/-- `AuthResponse` from `frontend/lib/api.ts`: the body returned by
`POST /auth/token`.  Optional fields model fields that may be absent. -/
structure AuthResponse where
  access_token : Option String
  mfa_required : Option Bool
  username : Option String
  deriving Repr, DecidableEq

/-- An HTTP request config as the axios interceptors see it: the `_retry`
marker the response interceptor sets before refreshing, and the
`Authorization` header value (if any). -/
structure Request where
  retryFlag : Bool
  authHeader : Option String
  deriving Repr, DecidableEq

/-- The mutable client-side state of `frontend/lib/api.ts`: the module-level
`isRefreshing` flag, `refreshSubscribers` queue and `csrfToken` cache, plus
the `localStorage` token and the axios default `Authorization` header that
`setAuthToken` maintains. -/
structure ClientState where
  isRefreshing : Bool
  refreshSubscribers : List Request
  csrfToken : Option String
  localToken : Option String
  authHeader : Option String
  deriving Repr, DecidableEq

/-- `ApiClient.setAuthToken`: stores the token in `localStorage` and as the
axios default `Authorization: Bearer` header, or removes both. -/
def setAuthToken (st : ClientState) (token : Option String) : ClientState :=
  match token with
  | some t => { st with localToken := some t, authHeader := some ("Bearer " ++ t) }
  | none => { st with localToken := none, authHeader := none }

/-- `ApiClient.login`, the part after the `POST /auth/token` response
arrives: if `response.data.mfa_required` is truthy the response is returned
as-is without touching the stored token; otherwise `setAuthToken` runs
exactly when the response carries an `access_token`. -/
def login (st : ClientState) (response : AuthResponse) : ClientState × AuthResponse :=
  if response.mfa_required = some true then
    (st, response)
  else
    match response.access_token with
    | some t => (setAuthToken st (some t), response)
    | none => (st, response)

/-- Errors surfaced by the HTTP layer to the client code. -/
inductive ApiError
  | httpError (status : Nat)
  | networkError
  deriving Repr, DecidableEq

/-- `ApiClient.logout`: `POST /auth/logout` inside `try`; the local token is
cleared in the `try` body on success and again in the `catch` on failure, and
the `catch` swallows the error, so the call itself never rejects.  The
first component is the new state, the second the outcome the caller sees. -/
def logout (st : ClientState) (serverResult : Except ApiError Unit) :
    ClientState × Except ApiError Unit :=
  match serverResult with
  | .ok _ => (setAuthToken st none, .ok ())
  | .error _ => (setAuthToken st none, .ok ())

/-- `AuthProvider` state from `contexts/AuthContext.tsx`: the current user,
cached session list, and the route the provider last pushed. -/
structure ProviderState where
  user : Option String
  sessions : Option (List String)
  route : String
  deriving Repr, DecidableEq

/-- `AuthProvider.logout`: awaits `api.logout`, clears the user and session
state and redirects to `/login`; the `catch` branch also clears the user and
redirects (without clearing `sessions`) and swallows the error. -/
def providerLogout (ps : ProviderState) (apiResult : Except ApiError Unit) :
    ProviderState × Except ApiError Unit :=
  match apiResult with
  | .ok _ => ({ ps with user := none, sessions := none, route := "/login" }, .ok ())
  | .error _ => ({ ps with user := none, route := "/login" }, .ok ())

/-- HTTP methods as axios sees them (lower-cased `config.method`). -/
inductive Method
  | get | head | post | put | delete | patch | options
  deriving Repr, DecidableEq

/-- The request-interceptor test
`['post', 'put', 'delete', 'patch'].includes(config.method.toLowerCase())`. -/
def isStateChanging : Method → Bool
  | .post | .put | .delete | .patch => true
  | _ => false

/-- A request config entering the request interceptor: its method and the
header map (association list). -/
structure RequestConfig where
  method : Method
  headers : List (String × String)
  deriving Repr, DecidableEq

/-- The CSRF request interceptor of `ApiClient.setupInterceptors`.  For a
state-changing method it first fetches a CSRF token when none is cached
(`fetchResult` is the outcome of that `GET /api/v1/csrf-token`: `none`
models the fetch throwing, which the interceptor catches and logs), then
adds the `X-CSRF-Token` header only if a token is available.  Other methods
pass through untouched. -/
def requestInterceptor (st : ClientState) (config : RequestConfig)
    (fetchResult : Option String) : ClientState × RequestConfig :=
  if isStateChanging config.method then
    let st1 := match st.csrfToken with
      | none => { st with csrfToken := fetchResult }
      | some _ => st
    match st1.csrfToken with
    | some tok => (st1, { config with headers := config.headers ++ [("X-CSRF-Token", tok)] })
    | none => (st1, config)
  else (st, config)

/-- Observable steps taken by the response interceptor while handling one
failed response. -/
inductive ClientAction
  | refreshRequest
  | retry (r : Request)
  | subscribe (r : Request)
  | redirectLogin
  | reject
  deriving Repr, DecidableEq

/-- `subscribeToTokenRefresh`: appends a callback (here: the waiting request)
to `refreshSubscribers`. -/
def subscribeToTokenRefresh (subs : List Request) (r : Request) : List Request :=
  subs ++ [r]

/-- `onTokenRefreshed`: runs every subscriber callback with the one new
token — each callback overwrites the waiting request's `Authorization`
header and re-issues it — then resets `refreshSubscribers` to `[]`.
Returns (requests re-issued, new subscriber list). -/
def onTokenRefreshed (subs : List Request) (token : String) :
    List Request × List Request :=
  (subs.map fun r => { r with authHeader := some ("Bearer " ++ token) }, [])

/-- `onTokenRefreshFailed`: drops all subscribers without calling them. -/
def onTokenRefreshFailed (_subs : List Request) : List Request :=
  ([] : List Request)

/-- The 401-handling response interceptor of `ApiClient.setupInterceptors`,
handling one rejected response.  `status` is `error.response.status`, `req`
is `error.config`, and `refreshOutcome` is the result of the
`POST /auth/refresh` the interceptor performs when it is the one to refresh
(`some token` on success, `none` on failure); the parameter is unread on
paths that never issue that request.  Returns the new client state and the
trace of observable actions. -/
def responseInterceptor (st : ClientState) (status : Nat) (req : Request)
    (refreshOutcome : Option String) : ClientState × List ClientAction :=
  if status = 401 ∧ req.retryFlag = false then
    if st.isRefreshing then
      ({ st with refreshSubscribers := subscribeToTokenRefresh st.refreshSubscribers req },
       [.subscribe req])
    else
      let req1 : Request := { req with retryFlag := true }
      match refreshOutcome with
      | some token =>
          let resumed := onTokenRefreshed st.refreshSubscribers token
          let st1 := setAuthToken st (some token)
          let st2 := { st1 with refreshSubscribers := resumed.2, isRefreshing := false }
          (st2, .refreshRequest :: resumed.1.map .retry ++ [.retry req1])
      | none =>
          let st1 := setAuthToken
            { st with refreshSubscribers := onTokenRefreshFailed st.refreshSubscribers,
                      isRefreshing := false } none
          (st1, [.refreshRequest, .redirectLogin, .reject])
  else (st, [.reject])

/-- The `onChange` handler of the verification-code input in
`components/MFASetup.tsx`: `value.replace(/[^0-9]/g, '').slice(0, 6)`. -/
def sanitizeCodeInput (s : String) : String :=
  ⟨(s.data.filter Char.isDigit).take 6⟩

/-- Local state of the `MFASetup` component relevant to verification. -/
structure MFASetupState where
  verificationCode : String
  error : String
  deriving Repr, DecidableEq

/-- `setVerificationCode` as wired to the input's `onChange`. -/
def handleCodeChange (st : MFASetupState) (raw : String) : MFASetupState :=
  { st with verificationCode := sanitizeCodeInput raw }

/-- The guard at the top of `MFASetup.verifyAndEnable`: it bails out with an
error message when `!verificationCode || verificationCode.length !== 6`, and
only otherwise calls `api.enableMFA(verificationCode)`.  The second
component is the code passed to `enableMFA` (`none` = no API call). -/
def verifyAndEnable (st : MFASetupState) : MFASetupState × Option String :=
  if st.verificationCode = "" ∨ st.verificationCode.length ≠ 6 then
    ({ st with error := "Please enter a valid 6-digit verification code" }, none)
  else
    ({ st with error := "" }, some st.verificationCode)

/-- What the `withAuth` HOC renders on a given pass. -/
inductive Rendered
  | loadingIndicator
  | protectedComponent
  | nothing
  deriving Repr, DecidableEq

/-- The render body of `components/withAuth.tsx`: loading spinner while the
auth check runs, the wrapped component when a user is present, `null`
otherwise. -/
def withAuthRender (loading : Bool) (user : Option String) : Rendered :=
  if loading then .loadingIndicator
  else
    match user with
    | some _ => .protectedComponent
    | none => .nothing

/-- The `useEffect` of `withAuth`: when the check has completed
(`!loading`) and no user is present, push `/login` with `returnUrl` set to
the current path (`router.asPath`); otherwise no navigation.  The result is
the (path, returnUrl) pair pushed, if any. -/
def withAuthEffect (loading : Bool) (user : Option String) (currentPath : String) :
    Option (String × String) :=
  if loading = false ∧ user = none then some ("/login", currentPath) else none

/-- The token-error taxonomy of the spec (§7). -/
inductive TokenError
  | TokenRevoked
  | TokenExpired
  | TokenUnknown
  deriving Repr, DecidableEq

/-- Modelled from the spec: the backend `RefreshTokenRecord` (§3) — the
Token Issuer / Session Registry implementation is not part of the frontend
source tree.  Device metadata is omitted as irrelevant to rotation. -/
structure RefreshTokenRecord where
  tokenId : Nat
  userId : Nat
  issuedAt : Nat
  expiresAt : Nat
  revoked : Bool
  deriving Repr, DecidableEq

/-- Modelled from the spec: `rotate(presentedRefreshToken)` of the Token
Issuer (§4.3), over a Session Registry held as a list of records.  Looks up
the record; fails with `TokenRevoked` if already revoked, `TokenExpired` if
past its TTL, `TokenUnknown` if absent; on success marks the old record
revoked and appends a fresh record (7-day TTL), returning the new registry
and the new token id in one step (atomic rotation). -/
def rotate (reg : List RefreshTokenRecord) (presented : Nat) (now : Nat)
    (newId : Nat) : Except TokenError (List RefreshTokenRecord × Nat) :=
  match reg.find? (fun r => r.tokenId = presented) with
  | none => .error .TokenUnknown
  | some r =>
      if r.revoked then .error .TokenRevoked
      else if r.expiresAt ≤ now then .error .TokenExpired
      else
        let reg1 := reg.map fun x =>
          if x.tokenId = presented then { x with revoked := true } else x
        .ok (reg1 ++ [{ tokenId := newId, userId := r.userId, issuedAt := now,
                        expiresAt := now + 7 * 24 * 3600, revoked := false }], newId)

/-- Modelled from the spec: `revoke(tokenId)` (§4.3) — marks matching
records revoked; idempotent. -/
def revokeToken (reg : List RefreshTokenRecord) (tid : Nat) :
    List RefreshTokenRecord :=
  reg.map fun r => if r.tokenId = tid then { r with revoked := true } else r

/-- Modelled from the spec: `revokeAll(userId)` (§4.3). -/
def revokeAll (reg : List RefreshTokenRecord) (uid : Nat) :
    List RefreshTokenRecord :=
  reg.map fun r => if r.userId = uid then { r with revoked := true } else r

/-- An operation later applied to the Session Registry. -/
inductive SessionOp
  | rotateOp (presented now newId : Nat)
  | revokeOp (tokenId : Nat)
  | revokeAllOp (userId : Nat)
  deriving Repr, DecidableEq

/-- Apply one registry operation; a failed rotation leaves the registry
unchanged (the orchestrator only returns the error). -/
def applySessionOp (reg : List RefreshTokenRecord) : SessionOp → List RefreshTokenRecord
  | .rotateOp presented now newId =>
      match rotate reg presented now newId with
      | .ok (reg1, _) => reg1
      | .error _ => reg
  | .revokeOp tid => revokeToken reg tid
  | .revokeAllOp uid => revokeAll reg uid

/-- Apply a sequence of registry operations in order. -/
def applySessionOps (reg : List RefreshTokenRecord) (ops : List SessionOp) :
    List RefreshTokenRecord :=
  ops.foldl applySessionOp reg

/-- Every record carrying token id `t` is revoked. -/
def allRevoked (reg : List RefreshTokenRecord) (t : Nat) : Bool :=
  reg.all fun r => decide (r.tokenId ≠ t) || r.revoked

/-- Some record carries token id `t`. -/
def hasToken (reg : List RefreshTokenRecord) (t : Nat) : Bool :=
  reg.any fun r => decide (r.tokenId = t)

/-- A rotation op whose fresh token id is not `t` (fresh ids are random and
unguessable per §4.3, so they never collide with an existing token id). -/
def opFreshFor (t : Nat) : SessionOp → Prop
  | .rotateOp _ _ newId => newId ≠ t
  | _ => True

/-- Result of an MFA code check (spec §4.2). -/
inductive MfaResult
  | Valid
  | Invalid
  deriving Repr, DecidableEq

/-- The 30-second TOTP step counter for a Unix time (spec §4.2). -/
def totpStep (now : Nat) : Nat := now / 30

/-- Modelled from the spec: the keyed-hash truncation of the standard TOTP
derivation (§4.2) — the TOTP Engine implementation is not part of the
frontend source tree, so the HMAC is abstracted as a concrete keyed mixing
of the secret bytes with the step counter, truncated to 6 decimal digits. -/
def totpCode (secret : List Nat) (counter : Nat) : Nat :=
  (secret.foldl (fun acc b => (acc * 131 + b + 17) % 4294967296)
      ((counter * 2654435761 + 97) % 4294967296)) % 1000000

/-- Decimal value of a digit list. -/
def digitsToNat (l : List Char) : Nat :=
  l.foldl (fun acc c => acc * 10 + (c.toNat - 48)) 0

/-- Parse a submitted TOTP code: exactly six decimal digits, read as a
number; anything else is malformed. -/
def parseCode (s : String) : Option Nat :=
  if s.length = 6 ∧ s.data.all Char.isDigit then some (digitsToNat s.data)
  else none

/-- Modelled from the spec: `validate(secret, submittedCode, now)` of the
TOTP Engine (§4.2): computes the code for the current step and the adjacent
±1 steps and accepts if any matches; malformed input yields `Invalid` (the
function is total, so it never throws). -/
def totpValidate (secret : List Nat) (submitted : String) (now : Nat) : MfaResult :=
  match parseCode submitted with
  | none => .Invalid
  | some n =>
      let s := totpStep now
      if n = totpCode secret (s - 1) ∨ n = totpCode secret s ∨
          n = totpCode secret (s + 1) then .Valid
      else .Invalid

/-- One stored backup code (spec §3): a hash and a used flag. -/
structure BackupCode where
  hash : Nat
  used : Bool
  deriving Repr, DecidableEq

/-- Modelled from the spec: the backup-code hash function, abstracted as a
concrete string hash (the stored values are unencrypted hashes, §3). -/
def hashCode (s : String) : Nat :=
  s.data.foldl (fun acc c => (acc * 131 + c.toNat) % 1000000007) 5381

/-- Case-normalization applied to a submitted backup code (§4.2),
upper-casing character by character; the client-side input in
`MFAVerification` applies the same `toUpperCase()`. -/
def normalizeBackup (s : String) : String := ⟨s.data.map Char.toUpper⟩

/-- Mark the first unused record whose hash matches `h` as used; `none`
when no unused record matches. -/
def markFirstMatch (codes : List BackupCode) (h : Nat) : Option (List BackupCode) :=
  match codes with
  | [] => none
  | c :: rest =>
      if c.used = false ∧ c.hash = h then some ({ c with used := true } :: rest)
      else (markFirstMatch rest h).map (c :: ·)

/-- Modelled from the spec: backup-code validation (§4.2): compares the
submitted code case-normalized against the unused stored hashes; on match,
marks that code used and returns `Valid`; already-used or unknown codes
return `Invalid`.  Returns the result and the updated code list. -/
def validateBackupCode (codes : List BackupCode) (submitted : String) :
    MfaResult × List BackupCode :=
  match markFirstMatch codes (hashCode (normalizeBackup submitted)) with
  | some codes1 => (.Valid, codes1)
  | none => (.Invalid, codes)

/-- Run a sequence of backup-code validations, threading the stored list. -/
def validateBackupSeq (codes : List BackupCode) (subs : List String) :
    List BackupCode :=
  subs.foldl (fun cs s => (validateBackupCode cs s).2) codes

/-- Every record with hash `h` is marked used. -/
def hashUsedUp (codes : List BackupCode) (h : Nat) : Bool :=
  codes.all fun c => decide (c.hash ≠ h) || c.used

/-- A successful rotation yields the old registry with the presented token's
records revoked, plus one fresh unrevoked record appended. -/
theorem rotate_ok_shape (reg : List RefreshTokenRecord) (p now nid : Nat)
    (reg1 : List RefreshTokenRecord) (nid2 : Nat)
    (h : rotate reg p now nid = .ok (reg1, nid2)) :
    nid2 = nid ∧ ∃ uid,
      reg1 = reg.map
          (fun x => if x.tokenId = p then { x with revoked := true } else x)
        ++ [⟨nid, uid, now, now + 7 * 24 * 3600, false⟩] := by
  unfold rotate at h
  cases hf : reg.find? (fun r => r.tokenId = p) with
  | none => rw [hf] at h; exact absurd h (by simp)
  | some r =>
      rw [hf] at h
      by_cases hrev : r.revoked
      · simp [hrev] at h
      · by_cases hexp : r.expiresAt ≤ now
        · simp [hrev, hexp] at h
        · simp only [hrev, hexp, if_false, if_neg, Bool.false_eq_true,
            not_false_eq_true] at h
          injection h with h1
          injection h1 with hreg hnid
          exact ⟨hnid.symm, r.userId, hreg.symm⟩

/-- After a successful rotation with a fresh new id, every record carrying
the presented token id is revoked, and at least one such record remains. -/
theorem rotate_ok_marks_revoked (reg : List RefreshTokenRecord)
    (t now id : Nat) (reg1 : List RefreshTokenRecord) (nid : Nat)
    (h : rotate reg t now id = .ok (reg1, nid)) (hid : id ≠ t) :
    allRevoked reg1 t = true ∧ hasToken reg1 t = true := by
  obtain ⟨-, uid, hshape⟩ := rotate_ok_shape reg t now id reg1 nid h
  have hfind : ∃ r, reg.find? (fun r => r.tokenId = t) = some r := by
    unfold rotate at h
    cases hf : reg.find? (fun r => r.tokenId = t) with
    | none => rw [hf] at h; exact absurd h (by simp)
    | some r => exact ⟨r, rfl⟩
  obtain ⟨r, hf⟩ := hfind
  have hrmem : r ∈ reg := List.mem_of_find?_eq_some hf
  have hrt : r.tokenId = t := by
    have := List.find?_some hf
    exact of_decide_eq_true this
  subst hshape
  constructor
  · simp only [allRevoked, List.all_append, List.all_map, Bool.and_eq_true,
      List.all_eq_true]
    refine ⟨?_, ?_⟩
    · intro x _
      by_cases hx : x.tokenId = t
      · simp [hx]
      · simp [hx]
    · intro x hx
      rw [List.mem_singleton] at hx
      subst hx
      simp [hid]
  · simp only [hasToken, List.any_append, Bool.or_eq_true, List.any_map,
      List.any_eq_true]
    left
    refine ⟨r, hrmem, ?_⟩
    by_cases hx : r.tokenId = t <;> simp [hx, hrt]

/-- Registry maps that keep token ids and only ever set the revoked flag
preserve `allRevoked` and `hasToken`. -/
theorem map_preserves_revoked (reg : List RefreshTokenRecord) (t : Nat)
    (f : RefreshTokenRecord → RefreshTokenRecord)
    (hid : ∀ r, (f r).tokenId = r.tokenId)
    (hrev : ∀ r, r.revoked = true → (f r).revoked = true) :
    (allRevoked reg t = true → allRevoked (reg.map f) t = true) ∧
    (hasToken reg t = true → hasToken (reg.map f) t = true) := by
  constructor
  · intro ha
    simp only [allRevoked, List.all_map, List.all_eq_true] at ha ⊢
    intro r hr
    have := ha r hr
    simp only [Function.comp, Bool.or_eq_true, decide_eq_true_eq] at this ⊢
    rw [hid]
    rcases this with h | h
    · exact Or.inl h
    · exact Or.inr (hrev r h)
  · intro hh
    simp only [hasToken, List.any_map, List.any_eq_true] at hh ⊢
    obtain ⟨r, hr, hp⟩ := hh
    refine ⟨r, hr, ?_⟩
    simpa [Function.comp, hid] using hp

/-- One registry operation with a fresh id preserves the facts that every
record of token id `t` is revoked and that one exists. -/
theorem sessionOp_preserves_revoked (reg : List RefreshTokenRecord) (t : Nat)
    (op : SessionOp) (ha : allRevoked reg t = true)
    (hh : hasToken reg t = true) (hf : opFreshFor t op) :
    allRevoked (applySessionOp reg op) t = true ∧
    hasToken (applySessionOp reg op) t = true := by
  cases op with
  | revokeOp tid =>
      have h := map_preserves_revoked reg t
        (fun r => if r.tokenId = tid then { r with revoked := true } else r)
        (fun r => by by_cases hx : r.tokenId = tid <;> simp [hx])
        (fun r hr => by by_cases hx : r.tokenId = tid <;> simp [hx, hr])
      exact ⟨h.1 ha, h.2 hh⟩
  | revokeAllOp uid =>
      have h := map_preserves_revoked reg t
        (fun r => if r.userId = uid then { r with revoked := true } else r)
        (fun r => by by_cases hx : r.userId = uid <;> simp [hx])
        (fun r hr => by by_cases hx : r.userId = uid <;> simp [hx, hr])
      exact ⟨h.1 ha, h.2 hh⟩
  | rotateOp p now nid =>
      simp only [applySessionOp]
      cases hres : rotate reg p now nid with
      | error e => exact ⟨ha, hh⟩
      | ok pr =>
          obtain ⟨reg1, nid2⟩ := pr
          obtain ⟨-, uid, hshape⟩ := rotate_ok_shape reg p now nid reg1 nid2 hres
          subst hshape
          have h := map_preserves_revoked reg t
            (fun x => if x.tokenId = p then { x with revoked := true } else x)
            (fun r => by by_cases hx : r.tokenId = p <;> simp [hx])
            (fun r hr => by by_cases hx : r.tokenId = p <;> simp [hx, hr])
          have hfresh : nid ≠ t := hf
          constructor
          · simp only [allRevoked, List.all_append, Bool.and_eq_true]
            refine ⟨h.1 ha, ?_⟩
            simp [hfresh]
          · simp only [hasToken, List.any_append, Bool.or_eq_true]
            exact Or.inl (h.2 hh)

/-- The revocation facts persist through any sequence of fresh-id registry
operations. -/
theorem sessionOps_preserve_revoked (t : Nat) (ops : List SessionOp) :
    ∀ reg : List RefreshTokenRecord, allRevoked reg t = true →
      hasToken reg t = true → (∀ op ∈ ops, opFreshFor t op) →
      allRevoked (applySessionOps reg ops) t = true ∧
      hasToken (applySessionOps reg ops) t = true := by
  induction ops with
  | nil => intro reg ha hh _; exact ⟨ha, hh⟩
  | cons op ops ih =>
      intro reg ha hh hops
      have hstep := sessionOp_preserves_revoked reg t op ha hh
        (hops op (List.mem_cons_self op ops))
      exact ih (applySessionOp reg op) hstep.1 hstep.2
        (fun o ho => hops o (List.mem_cons_of_mem _ ho))

/-- Presenting a token whose records are all revoked fails with
`TokenRevoked`. -/
theorem rotate_fails_revoked (reg : List RefreshTokenRecord)
    (t now id : Nat) (ha : allRevoked reg t = true)
    (hh : hasToken reg t = true) :
    rotate reg t now id = .error .TokenRevoked := by
  simp only [hasToken, List.any_eq_true] at hh
  obtain ⟨r, hr, hp⟩ := hh
  have hfind : (reg.find? (fun r => r.tokenId = t)).isSome := by
    rw [List.find?_isSome]
    exact ⟨r, hr, hp⟩
  obtain ⟨r0, hf⟩ := Option.isSome_iff_exists.mp hfind
  have hr0d := List.find?_some hf
  have hr0t : r0.tokenId = t := of_decide_eq_true hr0d
  have hr0mem : r0 ∈ reg := List.mem_of_find?_eq_some hf
  have hr0rev : r0.revoked = true := by
    simp only [allRevoked, List.all_eq_true] at ha
    have := ha r0 hr0mem
    simpa [hr0t] using this
  unfold rotate
  rw [hf]
  simp [hr0rev]

/-- C1: once a rotation succeeds, the presented refresh token is permanently
invalid — after any further sequence of rotations and revocations (whose
fresh token ids never reuse the old id), a rotation attempt presenting the
same old token fails with `TokenRevoked`, forcing re-authentication.
Modelled from the spec (§4.3): the backend Token Issuer is not in the
frontend source tree. -/
theorem rotated_token_permanently_revoked (reg : List RefreshTokenRecord)
    (t now id : Nat) (reg1 : List RefreshTokenRecord) (nid : Nat)
    (hrot : rotate reg t now id = .ok (reg1, nid)) (hfresh : id ≠ t)
    (ops : List SessionOp) (hops : ∀ op ∈ ops, opFreshFor t op)
    (now2 id2 : Nat) :
    rotate (applySessionOps reg1 ops) t now2 id2 = .error .TokenRevoked := by
  have h0 := rotate_ok_marks_revoked reg t now id reg1 nid hrot hfresh
  have h1 := sessionOps_preserve_revoked t ops reg1 h0.1 h0.2 hops
  exact rotate_fails_revoked _ t now2 id2 h1.1 h1.2

/-- Witness for `rotated_token_permanently_revoked`: token 1 is rotated to
token 2, a later rotation turns 2 into 3, and presenting token 1 again then
fails with `TokenRevoked`. -/
theorem rotated_token_permanently_revoked_witness :
    rotate (applySessionOps
        [⟨1, 7, 0, 1000, true⟩, ⟨2, 7, 10, 604810, false⟩]
        [.rotateOp 2 20 3]) 1 30 4 = .error .TokenRevoked :=
  rotated_token_permanently_revoked [⟨1, 7, 0, 1000, false⟩] 1 10 2
    [⟨1, 7, 0, 1000, true⟩, ⟨2, 7, 10, 604810, false⟩] 2 (by rfl)
    (by decide) [.rotateOp 2 20 3]
    (by intro op hop; rw [List.mem_singleton] at hop; subst hop
        simp [opFreshFor])
    30 4

/-- C6: TOTP validation accepts a submitted code exactly when it parses and
equals the code derived for the current 30-second step or an adjacent ±1
step; a code derived for a step more than 1 away (and distinct from the
three accepted codes) is rejected, and malformed input yields `Invalid`
rather than an exception (`totpValidate` is total).  Modelled from the spec
(§4.2): the backend TOTP Engine is not in the frontend source tree. -/
theorem totpValidate_skew_window (secret : List Nat) (sub : String)
    (now : Nat) :
    (totpValidate secret sub now = .Valid ↔
        ∃ n, parseCode sub = some n ∧
          (n = totpCode secret (totpStep now - 1) ∨
           n = totpCode secret (totpStep now) ∨
           n = totpCode secret (totpStep now + 1))) ∧
    (∀ t, (t + 1 < totpStep now ∨ totpStep now + 1 < t) →
        parseCode sub = some (totpCode secret t) →
        totpCode secret t ≠ totpCode secret (totpStep now - 1) →
        totpCode secret t ≠ totpCode secret (totpStep now) →
        totpCode secret t ≠ totpCode secret (totpStep now + 1) →
        totpValidate secret sub now = .Invalid) ∧
    (parseCode sub = none → totpValidate secret sub now = .Invalid) := by
  cases hp : parseCode sub with
  | none =>
      refine ⟨?_, ?_, ?_⟩
      · simp [totpValidate, hp]
      · intro t _ hpar
        exact absurd hpar (by simp)
      · intro _
        simp [totpValidate, hp]
  | some n =>
      refine ⟨?_, ?_, ?_⟩
      · simp only [totpValidate, hp]
        constructor
        · intro h
          split at h
          · rename_i hcond
            exact ⟨n, rfl, hcond⟩
          · exact absurd h (by simp)
        · rintro ⟨m, hm, hdis⟩
          injection hm with hm
          subst hm
          rw [if_pos hdis]
      · intro t _ hpar h1 h2 h3
        injection hpar with hpar
        subst hpar
        simp only [totpValidate, hp]
        rw [if_neg]
        push_neg
        exact ⟨h1, h2, h3⟩
      · intro hnone
        exact absurd hnone (by simp)

/-- Witness for `totpValidate_skew_window` with secret `[1, 2, 3]` at time
90 (step 3): the step-3 code is accepted, the step-10 code is rejected, and
a malformed code is `Invalid`. -/
theorem totpValidate_skew_window_witness :
    totpValidate [1, 2, 3] "976043" 90 = .Valid ∧
    totpValidate [1, 2, 3] "462808" 90 = .Invalid ∧
    totpValidate [1, 2, 3] "12ab56" 90 = .Invalid :=
  ⟨(totpValidate_skew_window [1, 2, 3] "976043" 90).1.mpr
      ⟨976043, by decide, Or.inr (Or.inl (by decide))⟩,
   (totpValidate_skew_window [1, 2, 3] "462808" 90).2.1 10
      (Or.inr (by decide)) (by decide) (by decide) (by decide) (by decide),
   (totpValidate_skew_window [1, 2, 3] "12ab56" 90).2.2 (by decide)⟩

/-- A successful backup-code match leaves every record with the matched
hash marked used, provided the stored hashes are distinct. -/
theorem markFirstMatch_hashUsedUp (codes : List BackupCode) (h : Nat)
    (hnodup : (codes.map BackupCode.hash).Nodup)
    (codes1 : List BackupCode) (hm : markFirstMatch codes h = some codes1) :
    hashUsedUp codes1 h = true := by
  induction codes generalizing codes1 with
  | nil => exact absurd hm (by simp [markFirstMatch])
  | cons c rest ih =>
      rw [List.map_cons, List.nodup_cons] at hnodup
      unfold markFirstMatch at hm
      by_cases hc : c.used = false ∧ c.hash = h
      · rw [if_pos hc] at hm
        injection hm with hm
        subst hm
        simp only [hashUsedUp, List.all_cons, Bool.and_eq_true]
        refine ⟨by simp, ?_⟩
        rw [List.all_eq_true]
        intro r hr
        have hne : r.hash ≠ h := by
          intro heq
          exact hnodup.1 (by rw [hc.2, ← heq]; exact List.mem_map_of_mem _ hr)
        simp [hne]
      · rw [if_neg hc] at hm
        cases hrest : markFirstMatch rest h with
        | none => rw [hrest] at hm; exact absurd hm (by simp)
        | some rest1 =>
            rw [hrest] at hm
            simp only [Option.map_some', Option.some.injEq] at hm
            subst hm
            simp only [hashUsedUp, List.all_cons, Bool.and_eq_true]
            refine ⟨?_, ih hnodup.2 rest1 hrest⟩
            rcases not_and_or.mp hc with hused | hhash
            · simp at hused
              simp [hused]
            · simp [hhash]

/-- Marking a further backup code used never un-uses a hash that is already
fully used up. -/
theorem markFirstMatch_preserves_usedUp (codes : List BackupCode)
    (h h2 : Nat) (hused : hashUsedUp codes h = true)
    (codes1 : List BackupCode) (hm : markFirstMatch codes h2 = some codes1) :
    hashUsedUp codes1 h = true := by
  induction codes generalizing codes1 with
  | nil => exact absurd hm (by simp [markFirstMatch])
  | cons c rest ih =>
      simp only [hashUsedUp, List.all_cons, Bool.and_eq_true] at hused
      unfold markFirstMatch at hm
      by_cases hc : c.used = false ∧ c.hash = h2
      · rw [if_pos hc] at hm
        injection hm with hm
        subst hm
        simp only [hashUsedUp, List.all_cons, Bool.and_eq_true]
        exact ⟨by simp, hused.2⟩
      · rw [if_neg hc] at hm
        cases hrest : markFirstMatch rest h2 with
        | none => rw [hrest] at hm; exact absurd hm (by simp)
        | some rest1 =>
            rw [hrest] at hm
            simp only [Option.map_some', Option.some.injEq] at hm
            subst hm
            simp only [hashUsedUp, List.all_cons, Bool.and_eq_true]
            exact ⟨hused.1, ih hused.2 rest1 hrest⟩

/-- No unused record matches a fully used-up hash. -/
theorem markFirstMatch_none_of_usedUp (codes : List BackupCode) (h : Nat)
    (hused : hashUsedUp codes h = true) : markFirstMatch codes h = none := by
  induction codes with
  | nil => rfl
  | cons c rest ih =>
      simp only [hashUsedUp, List.all_cons, Bool.and_eq_true] at hused
      have hc : ¬(c.used = false ∧ c.hash = h) := by
        rintro ⟨hu, hh⟩
        have := hused.1
        simp [hh, hu] at this
      unfold markFirstMatch
      rw [if_neg hc, ih hused.2]
      rfl

/-- A whole sequence of backup-code validations preserves a used-up hash. -/
theorem validateBackupSeq_preserves_usedUp (h : Nat) (subs : List String) :
    ∀ codes : List BackupCode, hashUsedUp codes h = true →
      hashUsedUp (validateBackupSeq codes subs) h = true := by
  induction subs with
  | nil => intro codes hused; exact hused
  | cons s rest ih =>
      intro codes hused
      have hstep : hashUsedUp (validateBackupCode codes s).2 h = true := by
        unfold validateBackupCode
        cases hm : markFirstMatch codes (hashCode (normalizeBackup s)) with
        | none => exact hused
        | some codes1 =>
            exact markFirstMatch_preserves_usedUp codes h _ hused codes1 hm
      exact ih _ hstep

/-- C7: backup codes are single-use — validation compares the submitted
code case-normalized against the unused stored hashes, a successful
validation marks the matched code used, and with pairwise-distinct stored
hashes every later validation of the same code (after any further
validations in between) returns `Invalid`, never `Valid` again.  Modelled
from the spec (§4.2): the backend backup-code store is not in the frontend
source tree. -/
theorem backup_code_single_use (codes : List BackupCode) (c : String)
    (codes1 : List BackupCode)
    (hnodup : (codes.map BackupCode.hash).Nodup)
    (hval : validateBackupCode codes c = (.Valid, codes1)) :
    hashUsedUp codes1 (hashCode (normalizeBackup c)) = true ∧
    ∀ others : List String,
      (validateBackupCode (validateBackupSeq codes1 others) c).1
        = .Invalid := by
  have hm : markFirstMatch codes (hashCode (normalizeBackup c)) = some codes1 := by
    unfold validateBackupCode at hval
    cases hm : markFirstMatch codes (hashCode (normalizeBackup c)) with
    | none => rw [hm] at hval; exact absurd hval (by simp)
    | some codes2 =>
        rw [hm] at hval
        simp only [Prod.mk.injEq] at hval
        rw [hval.2]
  have hused := markFirstMatch_hashUsedUp codes _ hnodup codes1 hm
  refine ⟨hused, ?_⟩
  intro others
  have hseq := validateBackupSeq_preserves_usedUp _ others codes1 hused
  unfold validateBackupCode
  rw [markFirstMatch_none_of_usedUp _ _ hseq]

/-- Witness for `backup_code_single_use`: validating `"ab12-cd34"` against
two distinct stored codes succeeds once, and re-validating it after an
intervening validation of the other code yields `Invalid`. -/
theorem backup_code_single_use_witness :
    hashUsedUp [⟨hashCode "AB12-CD34", true⟩, ⟨hashCode "EF56-GH78", false⟩]
        (hashCode (normalizeBackup "ab12-cd34")) = true ∧
    (validateBackupCode
        (validateBackupSeq
          [⟨hashCode "AB12-CD34", true⟩, ⟨hashCode "EF56-GH78", false⟩]
          ["EF56-GH78", "ab12-cd34"]) "ab12-cd34").1 = .Invalid :=
  ⟨(backup_code_single_use
      [⟨hashCode "AB12-CD34", false⟩, ⟨hashCode "EF56-GH78", false⟩]
      "ab12-cd34"
      [⟨hashCode "AB12-CD34", true⟩, ⟨hashCode "EF56-GH78", false⟩]
      (by decide) (by decide)).1,
   (backup_code_single_use
      [⟨hashCode "AB12-CD34", false⟩, ⟨hashCode "EF56-GH78", false⟩]
      "ab12-cd34"
      [⟨hashCode "AB12-CD34", true⟩, ⟨hashCode "EF56-GH78", false⟩]
      (by decide) (by decide)).2 ["EF56-GH78", "ab12-cd34"]⟩

/-- C4: a login response with `mfa_required` set to true is returned without
storing any access token — state (localStorage token and `Authorization`
header) is unchanged; and a token is stored only when the response carries
an `access_token`. -/
theorem login_mfa_required_no_token (st : ClientState) (r : AuthResponse) :
    (r.mfa_required = some true → login st r = (st, r)) ∧
    (r.access_token = none → (login st r).1 = st) := by
  constructor
  · intro h
    simp [login, h]
  · intro h
    unfold login
    split
    · rfl
    · rw [h]

/-- Witness for `login_mfa_required_no_token` at a concrete state and a
concrete MFA-required response. -/
theorem login_mfa_required_no_token_witness :
    login ⟨false, [], none, some "old", some "Bearer old"⟩
        ⟨none, some true, some "bob"⟩
      = (⟨false, [], none, some "old", some "Bearer old"⟩,
         ⟨none, some true, some "bob"⟩) ∧
    (login ⟨false, [], none, some "old", some "Bearer old"⟩
        ⟨none, some false, some "bob"⟩).1
      = ⟨false, [], none, some "old", some "Bearer old"⟩ :=
  ⟨(login_mfa_required_no_token _ _).1 rfl,
   (login_mfa_required_no_token _ _).2 rfl⟩

/-- C5: `logout` is idempotent and always reports success — whatever the
server call's outcome (including a second call on an already-revoked
token), no error escapes and the locally stored auth token is cleared in
both branches. -/
theorem logout_idempotent_always_ok (st : ClientState)
    (r1 r2 : Except ApiError Unit) :
    (logout st r1).2 = .ok () ∧
    (logout st r1).1.localToken = none ∧
    (logout st r1).1.authHeader = none ∧
    (logout (logout st r1).1 r2).2 = .ok () ∧
    (logout (logout st r1).1 r2).1 = (logout st r1).1 ∧
    (providerLogout ⟨some "u", some [], "/dashboard"⟩ r1).2 = .ok () ∧
    (providerLogout ⟨some "u", some [], "/dashboard"⟩ r1).1.user = none := by
  cases r1 <;> cases r2 <;> simp [logout, providerLogout, setAuthToken]

/-- C10: `withAuth` renders the protected component exactly when the auth
check completed with a non-null user; a completed check with a null user
renders nothing and navigates to `/login` carrying the current path as
`returnUrl`; while loading only the loading indicator renders, and the
navigation effect fires in no other case. -/
theorem withAuth_renders_iff_authenticated (loading : Bool)
    (user : Option String) (path : String) :
    (withAuthRender loading user = .protectedComponent ↔
        loading = false ∧ user ≠ none) ∧
    (loading = true → withAuthRender loading user = .loadingIndicator ∧
        withAuthEffect loading user path = none) ∧
    (loading = false → user = none →
        withAuthRender loading user = .nothing ∧
        withAuthEffect loading user path = some ("/login", path)) ∧
    (withAuthEffect loading user path ≠ none →
        loading = false ∧ user = none) := by
  cases loading <;> cases user <;>
    simp [withAuthRender, withAuthEffect]

/-- C2: on a first 401 in a quiescent client (no refresh in flight, so the
subscriber queue is empty and the failed request is not yet marked
`_retry`), exactly one `POST /auth/refresh` is issued; on refresh success
the original request is retried exactly once with `_retry` set, and a 401
on that retried request is rejected outright with no further refresh; on
refresh failure the stored auth token is cleared, the client redirects to
the login page, and the original request is not retried. -/
theorem response401_single_refresh_retry (st : ClientState) (req : Request)
    (outcome : Option String) (hq : st.isRefreshing = false)
    (hsubs : st.refreshSubscribers = []) (hr : req.retryFlag = false) :
    ((responseInterceptor st 401 req outcome).2.count .refreshRequest = 1) ∧
    (∀ t, outcome = some t →
        (responseInterceptor st 401 req outcome).2
          = [.refreshRequest, .retry { req with retryFlag := true }] ∧
        (responseInterceptor st 401 req outcome).1.localToken = some t ∧
        (responseInterceptor st 401 req outcome).1.authHeader
          = some ("Bearer " ++ t)) ∧
    (∀ st2 out2, responseInterceptor st2 401 { req with retryFlag := true } out2
        = (st2, [.reject])) ∧
    (outcome = none →
        (responseInterceptor st 401 req outcome).2
          = [.refreshRequest, .redirectLogin, .reject] ∧
        (responseInterceptor st 401 req outcome).1.localToken = none ∧
        (responseInterceptor st 401 req outcome).1.authHeader = none) := by
  refine ⟨?_, ?_, ?_, ?_⟩
  · cases outcome <;>
      simp [responseInterceptor, hq, hsubs, hr, setAuthToken,
        onTokenRefreshed, onTokenRefreshFailed, List.count]
  · intro t ht
    subst ht
    simp [responseInterceptor, hq, hsubs, hr, setAuthToken, onTokenRefreshed]
  · intro st2 out2
    simp [responseInterceptor]
  · intro ht
    subst ht
    simp [responseInterceptor, hq, hsubs, hr, setAuthToken, onTokenRefreshFailed]

/-- Witness for `response401_single_refresh_retry` at a concrete quiescent
state: success retries once with the new token installed, failure clears
the token, and the retried request is never refreshed again. -/
theorem response401_single_refresh_retry_witness :
    ((responseInterceptor ⟨false, [], none, some "old", some "Bearer old"⟩
        401 ⟨false, some "Bearer old"⟩ (some "new")).2.count .refreshRequest = 1) ∧
    ((responseInterceptor ⟨false, [], none, some "old", some "Bearer old"⟩
        401 ⟨false, some "Bearer old"⟩ (some "new")).2
      = [.refreshRequest, .retry ⟨true, some "Bearer old"⟩]) ∧
    (responseInterceptor ⟨false, [], none, some "old", some "Bearer old"⟩
        401 ⟨true, some "Bearer old"⟩ none
      = (⟨false, [], none, some "old", some "Bearer old"⟩, [.reject])) ∧
    ((responseInterceptor ⟨false, [], none, some "old", some "Bearer old"⟩
        401 ⟨false, some "Bearer old"⟩ none).1.localToken = none) :=
  ⟨(response401_single_refresh_retry _ _ _ rfl rfl rfl).1,
   ((response401_single_refresh_retry _ _ _ rfl rfl rfl).2.1 "new" rfl).1,
   (response401_single_refresh_retry
      ⟨false, [], none, some "old", some "Bearer old"⟩
      ⟨false, some "Bearer old"⟩ (some "new")
      rfl rfl rfl).2.2.1 ⟨false, [], none, some "old", some "Bearer old"⟩ none,
   ((response401_single_refresh_retry _ _ _ rfl rfl rfl).2.2.2 rfl).2.1⟩

/-- C8: while a refresh is in flight (`isRefreshing = true`), a further
401-failed request is appended to the subscriber queue and no second
`POST /auth/refresh` is issued; on refresh success every queued request is
retried with the one new token and the queue is emptied, and on refresh
failure the queue is emptied without retries. -/
theorem refresh_single_flight (st : ClientState) (req : Request)
    (outcome : Option String) (hflight : st.isRefreshing = true)
    (hr : req.retryFlag = false) :
    (responseInterceptor st 401 req outcome
      = ({ st with refreshSubscribers := st.refreshSubscribers ++ [req] },
         [.subscribe req])) ∧
    (∀ subs token, onTokenRefreshed subs token
      = (subs.map (fun r => { r with authHeader := some ("Bearer " ++ token) }),
         [])) ∧
    (∀ subs, onTokenRefreshFailed subs = []) ∧
    (∀ st2 req2 token, st2.isRefreshing = false → req2.retryFlag = false →
        (responseInterceptor st2 401 req2 (some token)).1.refreshSubscribers = [] ∧
        (responseInterceptor st2 401 req2 (some token)).2
          = .refreshRequest ::
              (st2.refreshSubscribers.map
                (fun r => { r with authHeader := some ("Bearer " ++ token) })).map
                  ClientAction.retry
              ++ [.retry { req2 with retryFlag := true }]) ∧
    (∀ st2 req2, st2.isRefreshing = false → req2.retryFlag = false →
        (responseInterceptor st2 401 req2 none).1.refreshSubscribers = []) := by
  refine ⟨?_, fun subs token => rfl, fun subs => rfl, ?_, ?_⟩
  · simp [responseInterceptor, hflight, hr, subscribeToTokenRefresh]
  · intro st2 req2 token h2 hr2
    refine ⟨?_, ?_⟩ <;>
      simp [responseInterceptor, h2, hr2, setAuthToken, onTokenRefreshed]
  · intro st2 req2 h2 hr2
    simp [responseInterceptor, h2, hr2, setAuthToken, onTokenRefreshFailed]

/-- Witness for `refresh_single_flight`: with a refresh in flight, a second
401 subscribes instead of refreshing, and a successful refresh retries the
queued request with the new token and clears the queue. -/
theorem refresh_single_flight_witness :
    (responseInterceptor ⟨true, [⟨false, some "Bearer old"⟩], none, none, none⟩
        401 ⟨false, none⟩ none
      = (⟨true, [⟨false, some "Bearer old"⟩, ⟨false, none⟩], none, none, none⟩,
         [.subscribe ⟨false, none⟩])) ∧
    ((responseInterceptor ⟨false, [⟨false, some "Bearer old"⟩], none, none, none⟩
        401 ⟨false, none⟩ (some "new")).1.refreshSubscribers = [] ∧
      (responseInterceptor ⟨false, [⟨false, some "Bearer old"⟩], none, none, none⟩
        401 ⟨false, none⟩ (some "new")).2
        = [.refreshRequest, .retry ⟨false, some "Bearer new"⟩,
           .retry ⟨true, none⟩]) :=
  ⟨(refresh_single_flight ⟨true, [⟨false, some "Bearer old"⟩], none, none, none⟩
      ⟨false, none⟩ none rfl rfl).1,
   by
    have h := (refresh_single_flight
        ⟨true, [⟨false, some "Bearer old"⟩], none, none, none⟩
        ⟨false, none⟩ none rfl rfl).2.2.2.1
      ⟨false, [⟨false, some "Bearer old"⟩], none, none, none⟩
      ⟨false, none⟩ "new" rfl rfl
    exact ⟨h.1, by rw [h.2]; rfl⟩⟩

/-- C3 counterexample: a POST issued with no cached CSRF token while the
token fetch fails is sent without any `X-CSRF-Token` header, so a
state-changing request does not always carry the CSRF header. -/
theorem csrf_header_absent_on_fetch_failure :
    ((requestInterceptor ⟨false, [], none, none, none⟩
        ⟨Method.post, []⟩ none).2.headers.any
      (fun p => p.1 = "X-CSRF-Token")) = false := by decide

/-- C3 (amended): for POST/PUT/DELETE/PATCH the client attaches the cached
CSRF token as `X-CSRF-Token`, first fetching a token when none is cached;
when no token is cached and the fetch fails, the request proceeds without
the header; GET/HEAD (and other non-state-changing) requests are never
touched. -/
theorem csrf_header_on_state_changing (st : ClientState)
    (cfg : RequestConfig) (fetch : Option String) (tok : String) :
    (isStateChanging cfg.method = true → st.csrfToken = some tok →
        (requestInterceptor st cfg fetch).2.headers
          = cfg.headers ++ [("X-CSRF-Token", tok)]) ∧
    (isStateChanging cfg.method = true → st.csrfToken = none →
        fetch = some tok →
        (requestInterceptor st cfg fetch).2.headers
          = cfg.headers ++ [("X-CSRF-Token", tok)]) ∧
    (isStateChanging cfg.method = true → st.csrfToken = none →
        fetch = none → (requestInterceptor st cfg fetch).2 = cfg) ∧
    (cfg.method = .get ∨ cfg.method = .head →
        requestInterceptor st cfg fetch = (st, cfg)) ∧
    (isStateChanging cfg.method = false →
        requestInterceptor st cfg fetch = (st, cfg)) := by
  refine ⟨?_, ?_, ?_, ?_, ?_⟩
  · intro hm hc
    simp [requestInterceptor, hm, hc]
  · intro hm hc hf
    simp [requestInterceptor, hm, hc, hf]
  · intro hm hc hf
    simp [requestInterceptor, hm, hc, hf]
  · intro hm
    have : isStateChanging cfg.method = false := by
      rcases hm with h | h <;> rw [h] <;> rfl
    simp [requestInterceptor, this]
  · intro hm
    simp [requestInterceptor, hm]

/-- Witness for `csrf_header_on_state_changing`: a POST with a cached token
gets the header, a fetch on a cache miss supplies it, and a GET passes
through untouched. -/
theorem csrf_header_on_state_changing_witness :
    (requestInterceptor ⟨false, [], some "tok", none, none⟩
        ⟨Method.post, []⟩ none).2.headers = [("X-CSRF-Token", "tok")] ∧
    (requestInterceptor ⟨false, [], none, none, none⟩
        ⟨Method.put, []⟩ (some "tok")).2.headers = [("X-CSRF-Token", "tok")] ∧
    (requestInterceptor ⟨false, [], none, none, none⟩
        ⟨Method.post, []⟩ none).2 = ⟨Method.post, []⟩ ∧
    requestInterceptor ⟨false, [], some "tok", none, none⟩
        ⟨Method.get, []⟩ none
      = (⟨false, [], some "tok", none, none⟩, ⟨Method.get, []⟩) :=
  ⟨(csrf_header_on_state_changing _ _ _ "tok").1 rfl rfl,
   (csrf_header_on_state_changing _ _ _ "tok").2.1 rfl rfl rfl,
   (csrf_header_on_state_changing _ _ _ "tok").2.2.1 rfl rfl rfl,
   (csrf_header_on_state_changing _ _ _ "tok").2.2.2.1 (Or.inl rfl)⟩

/-- C9: the MFA-setup input handler keeps only decimal digits and at most
six of them, and `verifyAndEnable` calls `enableMFA` only with the held
code when its length is exactly 6 — so every code reaching the API is
exactly 6 decimal digits — and otherwise sets an error message and performs
no API call. -/
theorem enableMFA_called_with_six_digits (st : MFASetupState) (raw : String) :
    ((handleCodeChange st raw).verificationCode.length ≤ 6 ∧
      ∀ c ∈ (handleCodeChange st raw).verificationCode.data, c.isDigit = true) ∧
    (∀ code, (verifyAndEnable (handleCodeChange st raw)).2 = some code →
        code.length = 6 ∧ ∀ c ∈ code.data, c.isDigit = true) ∧
    (st.verificationCode.length ≠ 6 →
        (verifyAndEnable st).2 = none ∧
        (verifyAndEnable st).1.error
          = "Please enter a valid 6-digit verification code") := by
  have hlen : (handleCodeChange st raw).verificationCode.length ≤ 6 := by
    simp only [handleCodeChange, sanitizeCodeInput, String.length]
    exact le_trans (le_of_eq (List.length_take 6 _)) (Nat.min_le_left _ _)
  have hdig : ∀ c ∈ (handleCodeChange st raw).verificationCode.data,
      c.isDigit = true := by
    intro c hc
    simp only [handleCodeChange, sanitizeCodeInput] at hc
    have hmem : c ∈ raw.data.filter Char.isDigit := List.take_subset _ _ hc
    exact (List.mem_filter.mp hmem).2
  refine ⟨⟨hlen, hdig⟩, ?_, ?_⟩
  · intro code hcode
    unfold verifyAndEnable at hcode
    split at hcode
    · exact absurd hcode (by simp)
    · rename_i hcond
      push_neg at hcond
      have hc6 : (handleCodeChange st raw).verificationCode.length = 6 := hcond.2
      have : code = (handleCodeChange st raw).verificationCode := by
        simpa using hcode.symm
      subst this
      exact ⟨hc6, hdig⟩
  · intro hne
    unfold verifyAndEnable
    split
    · exact ⟨rfl, rfl⟩
    · rename_i hcond
      push_neg at hcond
      exact absurd hcond.2 hne

/-- Witness for `enableMFA_called_with_six_digits`: sanitizing the raw input
`"12a345b6789"` yields `"123456"`, which passes to the API as a 6-digit
code, while a 3-digit code is rejected client-side with the error text. -/
theorem enableMFA_called_with_six_digits_witness :
    (("123456" : String).length = 6 ∧
      ∀ c ∈ ("123456" : String).data, c.isDigit = true) ∧
    ((verifyAndEnable ⟨"123", ""⟩).2 = none ∧
      (verifyAndEnable ⟨"123", ""⟩).1.error
        = "Please enter a valid 6-digit verification code") :=
  ⟨(enableMFA_called_with_six_digits ⟨"", ""⟩ "12a345b6789").2.1
      "123456" (by decide),
   (enableMFA_called_with_six_digits ⟨"123", ""⟩ "").2.2 (by decide)⟩

/-- Witness for `withAuth_renders_iff_authenticated`: the unauthenticated,
check-complete case redirects with the current path and renders nothing,
and the loading case shows the indicator. -/
theorem withAuth_renders_iff_authenticated_witness :
    (withAuthRender false none = .nothing ∧
      withAuthEffect false none "/profile" = some ("/login", "/profile")) ∧
    (withAuthRender true (none : Option String) = .loadingIndicator ∧
      withAuthEffect true (none : Option String) "/profile" = none) ∧
    withAuthRender false (some "alice") = .protectedComponent :=
  ⟨(withAuth_renders_iff_authenticated false none "/profile").2.2.1 rfl rfl,
   (withAuth_renders_iff_authenticated true none "/profile").2.1 rfl,
   (withAuth_renders_iff_authenticated false (some "alice") "/profile").1.2
     ⟨rfl, by simp⟩⟩
